import Mathlib

/-!
Shallow embedding of the momento media pipeline
(`apps/api/momento_api/processor/`): metadata extraction, thumbnail
rendering, source enumeration, keyword/tag merging, the regeneration
reconciler and the singleton-per-kind job supervisor.  Python integers
are `ℤ`/`ℕ`, Python floats are modelled as `ℚ` (no claim here depends on
binary rounding), `None` is `Option.none`, raised exceptions are
`Except` errors, and external effects (subprocess runs, the filesystem,
wall-clock time) are passed in as explicit environment values.
-/

set_option maxHeartbeats 1000000

deriving instance DecidableEq for Except

namespace Momento

/-! ### Python primitives (metadata.py helpers) -/

/-- Python `str.strip()` on the character list of a string. -/
def pyStrip (s : String) : List Char :=
  ((s.data.dropWhile Char.isWhitespace).reverse.dropWhile Char.isWhitespace).reverse

/-- Python exception classes that the embedded code raises or catches. -/
inductive PyErr where
  | typeError
  | valueError
  | zeroDivisionError
  | osError
  | timeoutExpired
  deriving DecidableEq, Repr

/-- Python runtime values that flow into the EXIF coercion helpers:
`None`, `int`, `float`, `str`, `bytes`, and tuples. -/
inductive PyVal where
  | none
  | int (n : ℤ)
  | float (q : ℚ)
  | str (s : String)
  | bytes (bs : List ℕ)
  | tuple (xs : List PyVal)

/-- Numeric value of a digit list, most significant first. -/
def digitsToNat (cs : List Char) : ℕ :=
  cs.foldl (fun a c => a * 10 + (c.toNat - 48)) 0

/-- Model of Python `float(s)` string parsing: optional surrounding
whitespace, optional sign, decimal digits with an optional fraction part
and an optional exponent.  Returns `none` exactly when Python's `float`
raises `ValueError`. -/
def pyParseFloat (s : String) : Option ℚ :=
  let cs := pyStrip s
  let signRest : ℚ × List Char :=
    match cs with
    | '+' :: r => (1, r)
    | '-' :: r => (-1, r)
    | r => (1, r)
  let sgn := signRest.1
  let body := signRest.2
  let mantExp := body.span (fun c => c != 'e' && c != 'E')
  let mant := mantExp.1
  let ipRest := mant.span (fun c => c != '.')
  let ip := ipRest.1
  let fracOk : Option (List Char) :=
    match ipRest.2 with
    | [] => some []
    | _ :: f => if f.any (fun c => c == '.') then Option.none else some f
  match fracOk with
  | Option.none => Option.none
  | some f =>
    if ip.isEmpty && f.isEmpty then Option.none
    else if !(ip.all Char.isDigit && f.all Char.isDigit) then Option.none
    else
      let base : ℚ := sgn * ((digitsToNat ip : ℚ) + (digitsToNat f : ℚ) / (10 ^ f.length : ℕ))
      match mantExp.2 with
      | [] => some base
      | _ :: e =>
        let esignRest : ℤ × List Char :=
          match e with
          | '+' :: r => (1, r)
          | '-' :: r => (-1, r)
          | r => (1, r)
        let ed := esignRest.2
        if ed.isEmpty || !(ed.all Char.isDigit) then Option.none
        else some (base * (10 : ℚ) ^ (esignRest.1 * (digitsToNat ed : ℤ)))

/-- Model of the Python builtin `float(value)` applied to one of our
`PyVal`s: ints and floats coerce, strings parse or raise `ValueError`,
everything else raises `TypeError`. -/
def pyFloatBuiltin : PyVal → Except PyErr ℚ
  | .int n => .ok (n : ℚ)
  | .float q => .ok q
  | .str s =>
    match pyParseFloat s with
    | some q => .ok q
    | Option.none => .error .valueError
  | _ => .error .typeError

/-- Python true division `x / y` on floats: raises `ZeroDivisionError`
when the divisor is zero. -/
def pyTrueDiv (x y : ℚ) : Except PyErr ℚ :=
  if y = 0 then .error .zeroDivisionError else .ok (x / y)

/-- The body of the `try` block in `_float_or_none`'s tuple branch:
`float(numerator) / float(denominator)`. -/
def tupleDivAttempt (a b : PyVal) : Except PyErr ℚ :=
  match pyFloatBuiltin a with
  | .error e => .error e
  | .ok x =>
    match pyFloatBuiltin b with
    | .error e => .error e
    | .ok y => pyTrueDiv x y

/-- `except ValueError` filter. -/
def catchesValueError : PyErr → Bool
  | .valueError => true
  | _ => false

/-- `except (ZeroDivisionError, TypeError, ValueError)` filter. -/
def catchesTupleErrors : PyErr → Bool
  | .zeroDivisionError => true
  | .typeError => true
  | .valueError => true
  | _ => false

/-- `try ... except <caught>: return fallback` around an expression that
produces a float: caught errors are replaced by the fallback, uncaught
ones propagate. -/
def catchErrors (caught : PyErr → Bool) (attempt : Except PyErr ℚ)
    (fallback : Option ℚ) : Except PyErr (Option ℚ) :=
  match attempt with
  | .ok q => .ok (some q)
  | .error e => if caught e then .ok fallback else .error e

/-- `metadata._float_or_none`, with its internal exception handling made
explicit: the result is `.error` only if an exception would escape the
Python function. -/
def float_or_none : PyVal → Except PyErr (Option ℚ)
  | .int n => .ok (some (n : ℚ))
  | .float q => .ok (some q)
  | .str s => catchErrors catchesValueError (pyFloatBuiltin (.str s)) Option.none
  | .tuple [a, b] => catchErrors catchesTupleErrors (tupleDivAttempt a b) Option.none
  | _ => .ok Option.none

/-! ### Job supervisor state (importer.py / regenerator.py) -/

/-- `regenerator.RegenerationStatus`. -/
inductive RegenerationStatus where
  | idle
  | running
  | completed
  | failed
  | cancelled
  deriving DecidableEq, Repr

/-- `regenerator.RegenerationJob`. Timestamps are abstract instants. -/
structure RegenerationJob where
  status : RegenerationStatus := .idle
  total_media : ℕ := 0
  processed_media : ℕ := 0
  updated_metadata : ℕ := 0
  generated_thumbnails : ℕ := 0
  updated_tags : ℕ := 0
  started_at : Option ℚ := Option.none
  completed_at : Option ℚ := Option.none
  errors : List String := []
  deriving DecidableEq, Repr

/-- `importer.ImportStatus` (no cancelled state for imports). -/
inductive ImportStatus where
  | idle
  | running
  | completed
  | failed
  deriving DecidableEq, Repr

/-- `importer.ImportJob`. -/
structure ImportJob where
  status : ImportStatus := .idle
  total_files : ℕ := 0
  processed_files : ℕ := 0
  successful_imports : ℕ := 0
  failed_imports : ℕ := 0
  started_at : Option ℚ := Option.none
  completed_at : Option ℚ := Option.none
  errors : List String := []
  deriving DecidableEq, Repr

/-- `regenerator._start_job`: under the job lock, return the current job
unchanged if it is running, otherwise install a fresh running job with a
start timestamp.  Result: (new `_current_job` cell, returned job). -/
def startRegenJob (cur : Option RegenerationJob) (now : ℚ) :
    Option RegenerationJob × RegenerationJob :=
  match cur with
  | some j =>
    if j.status = RegenerationStatus.running then (some j, j)
    else
      let fresh : RegenerationJob := { status := .running, started_at := some now }
      (some fresh, fresh)
  | Option.none =>
    let fresh : RegenerationJob := { status := .running, started_at := some now }
    (some fresh, fresh)

/-- `importer._start_import_job`: same singleton-per-kind discipline for
the import job cell. -/
def startImportJob (cur : Option ImportJob) (now : ℚ) :
    Option ImportJob × ImportJob :=
  match cur with
  | some j =>
    if j.status = ImportStatus.running then (some j, j)
    else
      let fresh : ImportJob := { status := .running, started_at := some now }
      (some fresh, fresh)
  | Option.none =>
    let fresh : ImportJob := { status := .running, started_at := some now }
    (some fresh, fresh)

/-! ### C10: `_float_or_none` is total and null-safe -/

theorem pyFloatBuiltin_error_caught (v : PyVal) (e : PyErr)
    (h : pyFloatBuiltin v = .error e) : catchesTupleErrors e = true := by
  cases v with
  | str s =>
    simp only [pyFloatBuiltin] at h
    cases hp : pyParseFloat s <;> simp only [hp] at h
    · injection h with h
      subst h
      rfl
    · exact Except.noConfusion h
  | int n => exact Except.noConfusion h
  | float q => exact Except.noConfusion h
  | none =>
    injection h with h
    subst h
    rfl
  | bytes bs =>
    injection h with h
    subst h
    rfl
  | tuple xs =>
    injection h with h
    subst h
    rfl

theorem pyFloatBuiltin_str_error (s : String) (e : PyErr)
    (h : pyFloatBuiltin (.str s) = .error e) : e = .valueError := by
  simp only [pyFloatBuiltin] at h
  cases hp : pyParseFloat s <;> simp only [hp] at h
  · injection h with h
    exact h.symm
  · exact Except.noConfusion h

theorem tupleDivAttempt_error_caught (a b : PyVal) (e : PyErr)
    (h : tupleDivAttempt a b = .error e) : catchesTupleErrors e = true := by
  simp only [tupleDivAttempt] at h
  cases ha : pyFloatBuiltin a with
  | error ea =>
    simp only [ha] at h
    injection h with h
    subst h
    exact pyFloatBuiltin_error_caught a _ ha
  | ok x =>
    simp only [ha] at h
    cases hb : pyFloatBuiltin b with
    | error eb =>
      simp only [hb] at h
      injection h with h
      subst h
      exact pyFloatBuiltin_error_caught b _ hb
    | ok y =>
      simp only [hb, pyTrueDiv] at h
      split at h
      · injection h with h
        subst h
        rfl
      · exact Except.noConfusion h

/-- C10: the EXIF numeric coercion `_float_or_none` is total — for every
input it returns a value (a float or `None`) and never lets an exception
escape; in particular a two-element rational with denominator zero, or
with a non-numeric numerator, yields `None`. -/
theorem float_or_none_total_and_safe :
    (∀ v : PyVal, ∃ o : Option ℚ, float_or_none v = .ok o) ∧
    (∀ a b : PyVal, pyFloatBuiltin b = .ok 0 →
      float_or_none (.tuple [a, b]) = .ok Option.none) ∧
    (∀ a b : PyVal, ∀ e : PyErr, pyFloatBuiltin a = .error e →
      float_or_none (.tuple [a, b]) = .ok Option.none) := by
  refine ⟨?_, ?_, ?_⟩
  · intro v
    match v with
    | .int n => exact ⟨some (n : ℚ), rfl⟩
    | .float q => exact ⟨some q, rfl⟩
    | .none => exact ⟨Option.none, rfl⟩
    | .bytes bs => exact ⟨Option.none, rfl⟩
    | .str s =>
      cases hf : pyFloatBuiltin (.str s) with
      | ok q =>
        exact ⟨some q, by simp only [float_or_none, catchErrors, hf]⟩
      | error e =>
        refine ⟨Option.none, ?_⟩
        have hv := pyFloatBuiltin_str_error s e hf
        subst hv
        simp only [float_or_none, catchErrors, hf, catchesValueError, if_pos]
    | .tuple xs =>
      match xs with
      | [] => exact ⟨Option.none, rfl⟩
      | [a] => exact ⟨Option.none, rfl⟩
      | [a, b] =>
        cases hf : tupleDivAttempt a b with
        | ok q =>
          exact ⟨some q, by simp only [float_or_none, catchErrors, hf]⟩
        | error e =>
          refine ⟨Option.none, ?_⟩
          have hc := tupleDivAttempt_error_caught a b e hf
          simp only [float_or_none, catchErrors, hf, hc, if_pos]
      | a :: b :: c :: r => exact ⟨Option.none, rfl⟩
  · intro a b hb
    cases ha : pyFloatBuiltin a with
    | error ea =>
      have hc := pyFloatBuiltin_error_caught a ea ha
      simp only [float_or_none, catchErrors, tupleDivAttempt, ha, hc, if_pos]
    | ok x =>
      have hdiv : tupleDivAttempt a b = .error .zeroDivisionError := by
        simp only [tupleDivAttempt, ha, hb, pyTrueDiv, if_pos]
      simp only [float_or_none, catchErrors, hdiv, catchesTupleErrors, if_pos]
  · intro a b e ha
    have hc := pyFloatBuiltin_error_caught a e ha
    simp only [float_or_none, catchErrors, tupleDivAttempt, ha, hc, if_pos]

theorem float_or_none_total_and_safe_witness :
    float_or_none (.tuple [.int 3, .int 0]) = .ok Option.none :=
  float_or_none_total_and_safe.2.1 (.int 3) (.int 0) (by norm_num [pyFloatBuiltin])

/-! ### C2: starting a job while one is running is a no-op -/

/-- C2: for both job kinds, calling the start operation while the stored
job of that kind is in the Running status creates no new job — the cell
is left unchanged and the existing running job itself is returned, so at
most one job per kind is ever running. -/
theorem start_job_running_conflict (now : ℚ) :
    (∀ j : RegenerationJob, j.status = RegenerationStatus.running →
      startRegenJob (some j) now = (some j, j)) ∧
    (∀ j : ImportJob, j.status = ImportStatus.running →
      startImportJob (some j) now = (some j, j)) := by
  constructor
  · intro j hj
    simp only [startRegenJob]
    rw [if_pos hj]
  · intro j hj
    simp only [startImportJob]
    rw [if_pos hj]

theorem start_job_running_conflict_witness :
    startRegenJob (some { status := .running }) 0 =
      (some { status := .running }, { status := .running }) :=
  (start_job_running_conflict 0).1 { status := .running } rfl

/-! ### Source enumeration (constants.py, importer._collect_import_files) -/

/-- `constants.IMAGE_EXTENSIONS`. -/
def IMAGE_EXTENSIONS : List String :=
  [".jpg", ".jpeg", ".png", ".gif", ".bmp", ".tiff", ".webp", ".heic", ".heif"]

/-- `constants.VIDEO_EXTENSIONS`. -/
def VIDEO_EXTENSIONS : List String :=
  [".mp4", ".mov", ".avi", ".mkv", ".webm", ".m4v"]

/-- `constants.SUPPORTED_EXTENSIONS` (set union of the two disjoint sets). -/
def SUPPORTED_EXTENSIONS : List String := IMAGE_EXTENSIONS ++ VIDEO_EXTENSIONS

/-- A file below the import root: the directory components relative to
the root, and the file name. -/
structure FileEntry where
  dirs : List String
  name : String
  deriving DecidableEq, Repr

/-- Python `str.upper()` restricted to ASCII names. -/
def pyUpper (s : String) : String := ⟨s.data.map Char.toUpper⟩

/-- Python `str.lower()` restricted to ASCII names. -/
def pyLower (s : String) : String := ⟨s.data.map Char.toLower⟩

/-- A `pathlib` glob pattern of the shape `*<ext>` matches a file name
exactly when the name ends with `ext` (the extensions contain no path
separator and `*` matches any run of non-separator characters). -/
def matchesGlobStar (ext name : String) : Bool :=
  ext.data.isSuffixOf name.data

/-- `root.glob(f"*{ext}")`: files directly in the root whose name ends
with `ext`. -/
def globTopLevel (files : List FileEntry) (ext : String) : List FileEntry :=
  files.filter (fun f => f.dirs.isEmpty && matchesGlobStar ext f.name)

/-- `root.glob(f"**/*{ext}")`: files at any depth (including the root
itself) whose name ends with `ext`. -/
def globRecursive (files : List FileEntry) (ext : String) : List FileEntry :=
  files.filter (fun f => matchesGlobStar ext f.name)

/-- `importer._collect_import_files`: four glob passes per supported
extension (lowercase and uppercase spellings, shallow and recursive),
then `list(set(...))` deduplication. -/
def collect_import_files (files : List FileEntry) : List FileEntry :=
  (SUPPORTED_EXTENSIONS.flatMap (fun ext =>
    globTopLevel files ext ++ globTopLevel files (pyUpper ext) ++
      globRecursive files ext ++ globRecursive files (pyUpper ext))).dedup

/-- `pathlib.PurePath.suffix`: the file name from its last dot on, empty
when the dot is absent, leading, or trailing. -/
def pySuffix (name : String) : String :=
  let ds := name.data
  match ((List.range ds.length).filter (fun i => ds.getD i ' ' == '.')).getLast? with
  | some i => if 0 < i ∧ i < ds.length - 1 then ⟨ds.drop i⟩ else ""
  | Option.none => ""

theorem pySuffix_isSuffixOf (name : String) :
    matchesGlobStar (pySuffix name) name = true := by
  unfold matchesGlobStar pySuffix
  rw [List.isSuffixOf_iff_suffix]
  cases hL : ((List.range name.data.length).filter
      (fun i => name.data.getD i ' ' == '.')).getLast? with
  | none =>
    simp only [hL]
    exact List.nil_suffix
  | some i =>
    simp only [hL]
    by_cases hc : 0 < i ∧ i < name.data.length - 1
    · rw [if_pos hc]
      exact List.drop_suffix i name.data
    · rw [if_neg hc]
      exact List.nil_suffix

/-! ### C8: supported files are enumerated exactly once -/

/-- C8 (amended): a file under the import root whose extension is
spelled either exactly as a supported lowercase extension or as its
all-uppercase variant appears exactly once in the collected list, even
though several glob passes match it.  (Mixed-case spellings such as
`.Jpg` are missed by the code — see the counterexample.) -/
theorem collect_import_files_exactly_once (files : List FileEntry) (f : FileEntry)
    (hf : f ∈ files)
    (hext : pySuffix f.name ∈ SUPPORTED_EXTENSIONS ∨
      ∃ e ∈ SUPPORTED_EXTENSIONS, pySuffix f.name = pyUpper e) :
    (collect_import_files files).count f = 1 := by
  have hmem : f ∈ SUPPORTED_EXTENSIONS.flatMap (fun ext =>
      globTopLevel files ext ++ globTopLevel files (pyUpper ext) ++
        globRecursive files ext ++ globRecursive files (pyUpper ext)) := by
    rw [List.mem_flatMap]
    rcases hext with h | ⟨e, he, hup⟩
    · refine ⟨pySuffix f.name, h, ?_⟩
      have hrec : f ∈ globRecursive files (pySuffix f.name) := by
        rw [globRecursive, List.mem_filter]
        exact ⟨hf, pySuffix_isSuffixOf f.name⟩
      simp [hrec]
    · refine ⟨e, he, ?_⟩
      have hsfx := pySuffix_isSuffixOf f.name
      rw [hup] at hsfx
      have hrec : f ∈ globRecursive files (pyUpper e) := by
        rw [globRecursive, List.mem_filter]
        exact ⟨hf, hsfx⟩
      simp [hrec]
  rw [collect_import_files, List.count_dedup, if_pos hmem]

theorem collect_import_files_exactly_once_witness :
    (collect_import_files [⟨[], "photo.jpg"⟩]).count ⟨[], "photo.jpg"⟩ = 1 :=
  collect_import_files_exactly_once [⟨[], "photo.jpg"⟩] ⟨[], "photo.jpg"⟩
    (by decide) (Or.inl (by decide))

/-- C8 counterexample: the file `photo.Jpg` has the mixed-case extension
`.Jpg`, whose lowercasing `.jpg` is supported, yet the enumeration
returns it zero times — neither the lowercase nor the uppercase glob
pattern matches it. -/
theorem collect_import_files_mixed_case_missed :
    pySuffix "photo.Jpg" = ".Jpg" ∧
    pyLower ".Jpg" ∈ SUPPORTED_EXTENSIONS ∧
    collect_import_files [⟨[], "photo.Jpg"⟩] = [] := by
  refine ⟨by decide, by decide, by decide⟩

/-! ### JSON values and the video probe (metadata.py, video path) -/

/-- A decoded JSON value, as `json.loads` produces it. -/
inductive Json where
  | null
  | bool (b : Bool)
  | num (q : ℚ)
  | str (s : String)
  | arr (xs : List Json)
  | obj (fields : List (String × Json))

/-- `d.get(key)` on a decoded JSON dict.  Python's decoder maps JSON
`null` to `None`, so a key bound to `null` and an absent key are both
`None` to the caller. -/
def pyGet (fields : List (String × Json)) (key : String) : Option Json :=
  match fields.lookup key with
  | some .null => Option.none
  | some v => some v
  | Option.none => Option.none

/-- `key in d` on a decoded JSON dict (key presence, even if bound to
`null`). -/
def pyHasKey (fields : List (String × Json)) (key : String) : Bool :=
  (fields.lookup key).isSome

/-- Python truthiness of an optional decoded JSON value (`None`, `null`,
`0`, `""`, `[]`, `{}` and `False` are falsy). -/
def jsonTruthy : Option Json → Bool
  | Option.none => false
  | some .null => false
  | some (.bool b) => b
  | some (.num q) => q != 0
  | some (.str s) => !s.isEmpty
  | some (.arr xs) => !xs.isEmpty
  | some (.obj fs) => !fs.isEmpty

/-- Python `a or b` on optional decoded JSON values. -/
def pyOr (a b : Option Json) : Option Json :=
  if jsonTruthy a then a else b

/-- The builtin `float(value)` on a decoded JSON value: numbers and
booleans coerce, strings parse or raise `ValueError`, the rest raise
`TypeError`. -/
def pyFloatOfJson : Json → Except PyErr ℚ
  | .num q => .ok q
  | .bool b => .ok (if b then 1 else 0)
  | .str s =>
    match pyParseFloat s with
    | some q => .ok q
    | Option.none => .error .valueError
  | .null => .error .typeError
  | .arr _ => .error .typeError
  | .obj _ => .error .typeError

/-- `metadata.MediaMetadata` as the video extraction path populates it.
Stream `width`/`height` are copied from the probe JSON without
validation, so they stay raw JSON values; timestamps are epoch
seconds. -/
structure VideoMeta where
  width : Option Json := Option.none
  height : Option Json := Option.none
  date_taken : Option ℚ := Option.none
  gps_latitude : Option ℚ := Option.none
  gps_longitude : Option ℚ := Option.none
  duration_seconds : Option ℚ := Option.none
  mime_type : Option String := Option.none

/-- First index `≥ 1` holding `'+'` or `'-'` (the split point of an
ISO-6709 coordinate string). -/
def signSplitIdx (cs : List Char) : Option ℕ :=
  ((List.range cs.length).filter
    (fun i => 0 < i && (cs.getD i ' ' == '+' || cs.getD i ' ' == '-'))).head?

/-- First index `≥ 1` holding the given character (`str.find(c, 1)`),
`none` when absent. -/
def findFrom1 (cs : List Char) (c : Char) : Option ℕ :=
  ((List.range cs.length).filter (fun i => 0 < i && cs.getD i ' ' == c)).head?

/-- `metadata._parse_iso6709_location`: strip trailing slashes, split at
the first sign character after index zero, parse both halves as floats
(the longitude half is cut at `find("+", 1)` when a `'+'` occurs past
index zero, else at `find("-", 1)`). -/
def parse_iso6709_location (location : String) : Option ℚ × Option ℚ :=
  let lv := (location.data.reverse.dropWhile (fun c => c == '/')).reverse
  match signSplitIdx lv with
  | Option.none => (Option.none, Option.none)
  | some i =>
    let latStr : List Char := lv.take i
    let lonStr : List Char := lv.drop i
    if latStr.isEmpty || lonStr.isEmpty then (Option.none, Option.none)
    else
      match pyParseFloat ⟨latStr⟩ with
      | Option.none => (Option.none, Option.none)
      | some lat =>
        let lonEnd : Option ℕ :=
          if (lonStr.drop 1).any (fun c => c == '+') then findFrom1 lonStr '+'
          else findFrom1 lonStr '-'
        let lonPiece : List Char :=
          match lonEnd with
          | some j => lonStr.take j
          | Option.none => lonStr
        match pyParseFloat ⟨lonPiece⟩ with
        | Option.none => (Option.none, Option.none)
        | some lon => (some lat, some lon)

/-- `metadata._parse_ffprobe_output` applied to the already-decoded
stdout (`Option.none` models a `JSONDecodeError`): accept only a JSON
object. -/
def parse_ffprobe_output (stdout : Option Json) : Option (List (String × Json)) :=
  match stdout with
  | some (.obj fields) => some fields
  | _ => Option.none

/-- `metadata._apply_video_stream_metadata`'s loop: width/height from
the first stream entry whose `codec_type` is `"video"`. -/
def applyFirstVideoStream (m : VideoMeta) : List Json → VideoMeta
  | [] => m
  | .obj entry :: rest =>
    match pyGet entry "codec_type" with
    | some (.str ct) =>
      if ct = "video" then
        { m with width := pyGet entry "width", height := pyGet entry "height" }
      else applyFirstVideoStream m rest
    | _ => applyFirstVideoStream m rest
  | _ :: rest => applyFirstVideoStream m rest

/-- `metadata._apply_video_stream_metadata`. -/
def apply_video_stream_metadata (m : VideoMeta) (data : List (String × Json)) : VideoMeta :=
  match pyGet data "streams" with
  | some (.arr entries) => applyFirstVideoStream m entries
  | _ => m

/-- The stream-duration fallback loop of
`metadata._apply_video_format_metadata`: the `duration` value of the
first video stream entry that has a `duration` key.  (A `null` duration
value collapses to `none`, which the caller treats the same as never
breaking out of the loop: both yield duration `0.0`.) -/
def streamDurationFallback : List Json → Option Json
  | [] => Option.none
  | .obj entry :: rest =>
    match pyGet entry "codec_type" with
    | some (.str ct) =>
      if ct = "video" ∧ pyHasKey entry "duration" = true then pyGet entry "duration"
      else streamDurationFallback rest
    | _ => streamDurationFallback rest
  | _ :: rest => streamDurationFallback rest

/-- The `duration` candidate in `_apply_video_format_metadata`: the
format block's value, else the stream fallback. -/
def durationValueOf (data fmt : List (String × Json)) : Option Json :=
  match pyGet fmt "duration" with
  | some v => some v
  | Option.none =>
    match pyGet data "streams" with
    | some (.arr entries) => streamDurationFallback entries
    | _ => Option.none

/-- External collaborators of the video format step: the file's
modification time (as `_fallback_to_mtime` returns it), the
`datetime.fromisoformat` parser, and the lowercased file suffix. -/
structure VideoFmtEnv where
  mtime : Option ℚ
  isoParse : String → Option ℚ
  suffix : String

/-- `s.replace("Z", "+00:00")`. -/
def pyReplaceZ (s : String) : String :=
  ⟨s.data.flatMap (fun c => if c = 'Z' then "+00:00".data else [c])⟩

/-- The `tags` sub-dict of the format block (empty when absent or not a
dict). -/
def fmtTagData (fmt : List (String × Json)) : List (String × Json) :=
  match pyGet fmt "tags" with
  | some (.obj td) => td
  | _ => []

/-- Duration assignment in `_apply_video_format_metadata`: coerce the
candidate with `float`, `TypeError`/`ValueError` and a missing candidate
all yield `0.0`. -/
def applyFmtDuration (m : VideoMeta) (data fmt : List (String × Json)) : VideoMeta :=
  match durationValueOf data fmt with
  | some v =>
    match pyFloatOfJson v with
    | .ok q => { m with duration_seconds := some q }
    | .error _ => { m with duration_seconds := some 0 }
  | Option.none => { m with duration_seconds := some 0 }

/-- Capture-timestamp assignment in `_apply_video_format_metadata`:
`creation_time` or the QuickTime tag, parsed as ISO-8601 with a trailing
`Z` rewritten to `+00:00`; on absence or parse failure fall back to the
file's modification time. -/
def applyFmtDate (m : VideoMeta) (fmt : List (String × Json)) (env : VideoFmtEnv) : VideoMeta :=
  let creation := pyOr (pyGet (fmtTagData fmt) "creation_time")
    (pyGet (fmtTagData fmt) "com.apple.quicktime.creationdate")
  let m1 :=
    match creation with
    | some (.str s) => { m with date_taken := env.isoParse (pyReplaceZ s) }
    | _ => m
  if m1.date_taken.isNone then { m1 with date_taken := env.mtime } else m1

/-- GPS assignment in `_apply_video_format_metadata`: either location
tag, ISO-6709 parsed. -/
def applyFmtLocation (m : VideoMeta) (fmt : List (String × Json)) : VideoMeta :=
  let location := pyOr (pyGet (fmtTagData fmt) "location")
    (pyGet (fmtTagData fmt) "com.apple.quicktime.location.ISO6709")
  match location with
  | some (.str s) =>
    { m with gps_latitude := (parse_iso6709_location s).1,
             gps_longitude := (parse_iso6709_location s).2 }
  | _ => m

/-- Mime-type assignment in `_apply_video_format_metadata`: fixed lookup
on the lowercased extension, defaulting to `video/mp4`. -/
def mimeMap (ext : String) : String :=
  if ext = ".mp4" then "video/mp4"
  else if ext = ".mov" then "video/quicktime"
  else if ext = ".avi" then "video/x-msvideo"
  else if ext = ".mkv" then "video/x-matroska"
  else if ext = ".webm" then "video/webm"
  else if ext = ".m4v" then "video/x-m4v"
  else "video/mp4"

/-- `metadata._apply_video_format_metadata`: when the format block is
not a dict, only the mtime fallback timestamp is set; otherwise the
duration, timestamp, location and mime-type assignments run in
sequence. -/
def apply_video_format_metadata (m : VideoMeta) (data : List (String × Json))
    (env : VideoFmtEnv) : VideoMeta :=
  match pyGet data "format" with
  | some (.obj fmt) =>
    { applyFmtLocation (applyFmtDate (applyFmtDuration m data fmt) fmt env) fmt with
        mime_type := some (mimeMap env.suffix) }
  | _ => { m with date_taken := env.mtime }

/-- Outcome of the `subprocess.run(["ffprobe", ...], timeout=30)` call:
the call raised `OSError`/`ValueError` (which the `except` clause
catches), raised `subprocess.TimeoutExpired` on the bounded timeout
(which `except (OSError, ValueError)` does NOT catch), or completed with
a return code and a stdout whose `json.loads` result is given
(`Option.none` models a decode failure). -/
inductive ProbeOutcome where
  | raised
  | timedOut
  | completed (returncode : ℤ) (stdout : Option Json)

/-- External collaborators of `extract_video_metadata` for one file. -/
structure VideoEnv where
  probe : ProbeOutcome
  mtime : Option ℚ
  isoParse : String → Option ℚ
  suffix : String

/-- `metadata.extract_video_metadata`.  The result is `.error` when an
exception escapes the Python function: a probe timeout raises
`subprocess.TimeoutExpired`, which the `except (OSError, ValueError)`
handler does not catch, so no fallback metadata is produced on that
path. -/
def extract_video_metadata (env : VideoEnv) : Except PyErr VideoMeta :=
  let metadata : VideoMeta := {}
  match env.probe with
  | .raised =>
    .ok { metadata with date_taken := env.mtime, duration_seconds := some 0 }
  | .timedOut => .error .timeoutExpired
  | .completed rc stdout =>
    if rc ≠ 0 then
      .ok { metadata with date_taken := env.mtime, duration_seconds := some 0 }
    else
      match parse_ffprobe_output stdout with
      | some data =>
        .ok (apply_video_format_metadata (apply_video_stream_metadata metadata data)
          data ⟨env.mtime, env.isoParse, env.suffix⟩)
      | Option.none => .ok { metadata with date_taken := env.mtime }

theorem applyFmtDate_duration (m : VideoMeta) (fmt : List (String × Json))
    (env : VideoFmtEnv) :
    (applyFmtDate m fmt env).duration_seconds = m.duration_seconds := by
  simp only [applyFmtDate]
  split <;> split <;> rfl

theorem applyFmtLocation_duration (m : VideoMeta) (fmt : List (String × Json)) :
    (applyFmtLocation m fmt).duration_seconds = m.duration_seconds := by
  simp only [applyFmtLocation]
  split <;> rfl

theorem apply_video_format_metadata_duration (m : VideoMeta)
    (data : List (String × Json)) (env : VideoFmtEnv) (fmt : List (String × Json))
    (hfmt : pyGet data "format" = some (.obj fmt)) :
    (apply_video_format_metadata m data env).duration_seconds =
      some (match durationValueOf data fmt with
        | some v =>
          match pyFloatOfJson v with
          | .ok q => q
          | .error _ => 0
        | Option.none => 0) := by
  simp only [apply_video_format_metadata, hfmt]
  have hmime : ∀ x : VideoMeta,
      ({ x with mime_type := some (mimeMap env.suffix) } : VideoMeta).duration_seconds =
        x.duration_seconds := fun _ => rfl
  rw [hmime, applyFmtLocation_duration, applyFmtDate_duration]
  simp only [applyFmtDuration]
  split
  · split <;> rfl
  · rfl

/-! ### C4: probe failure fallbacks of video extraction -/

/-- C4 (amended): when the probe invocation raises an OS or value error,
or exits non-zero, video extraction returns mtime-derived timestamp and
zero duration; when the probe times out, the `TimeoutExpired` exception
propagates out of extraction uncaught, so no fallback metadata is
returned; when the probe output fails to decode as a JSON object, the
timestamp is mtime-derived but the duration is left null rather than set
to zero. -/
theorem extract_video_metadata_failure_modes (env : VideoEnv) :
    (env.probe = .raised →
      extract_video_metadata env =
        .ok { date_taken := env.mtime, duration_seconds := some 0 }) ∧
    (env.probe = .timedOut →
      extract_video_metadata env = .error .timeoutExpired) ∧
    (∀ rc stdout, env.probe = .completed rc stdout → rc ≠ 0 →
      extract_video_metadata env =
        .ok { date_taken := env.mtime, duration_seconds := some 0 }) ∧
    (∀ rc stdout, env.probe = .completed rc stdout → rc = 0 →
      parse_ffprobe_output stdout = Option.none →
      extract_video_metadata env = .ok { date_taken := env.mtime }) := by
  refine ⟨?_, ?_, ?_, ?_⟩
  · intro h
    simp only [extract_video_metadata, h]
  · intro h
    simp only [extract_video_metadata, h]
  · intro rc stdout h hrc
    simp only [extract_video_metadata, h, if_pos hrc]
  · intro rc stdout h hrc hparse
    subst hrc
    simp only [extract_video_metadata, h, hparse]
    norm_num

theorem extract_video_metadata_failure_modes_witness :
    extract_video_metadata
        { probe := .raised, mtime := some 5, isoParse := fun _ => Option.none,
          suffix := ".mp4" } =
      .ok { date_taken := some 5, duration_seconds := some 0 } :=
  (extract_video_metadata_failure_modes
    { probe := .raised, mtime := some 5, isoParse := fun _ => Option.none,
      suffix := ".mp4" }).1 rfl

/-- C4 counterexample: a probe that exits zero but whose stdout is not
valid JSON yields a metadata value whose duration is `None`, not zero;
and a probe that times out makes extraction raise rather than return the
mtime/zero fallback — both refute the claim that every probe failure
yields an mtime-derived timestamp and zero duration. -/
theorem extract_video_metadata_unparsable_json_counterexample :
    (extract_video_metadata
        { probe := .completed 0 Option.none, mtime := some 5,
          isoParse := fun _ => Option.none, suffix := ".mp4" }).map
        VideoMeta.date_taken = .ok (some 5) ∧
    (extract_video_metadata
        { probe := .completed 0 Option.none, mtime := some 5,
          isoParse := fun _ => Option.none, suffix := ".mp4" }).map
        VideoMeta.duration_seconds ≠ .ok (some 0) ∧
    extract_video_metadata
        { probe := .timedOut, mtime := some 5,
          isoParse := fun _ => Option.none, suffix := ".mp4" } =
      .error .timeoutExpired := by
  refine ⟨rfl, by decide, rfl⟩

/-! ### C7: stream-duration fallback -/

/-- C7 (amended): for a successfully probed and parsed video whose
format block has no usable `duration` entry, the duration falls back to
the first video stream entry carrying a `duration` key: a coercible
value there becomes the duration.  The duration is zero when the chosen
candidate fails float coercion — even if the other source would have
been coercible — or when neither the format block nor any video stream
supplies a candidate. -/
theorem extract_video_metadata_duration_spec (env : VideoEnv)
    (data fmt : List (String × Json))
    (hp : env.probe = .completed 0 (some (.obj data)))
    (hfmt : pyGet data "format" = some (.obj fmt)) :
    (∀ entries dv q, pyGet fmt "duration" = Option.none →
      pyGet data "streams" = some (.arr entries) →
      streamDurationFallback entries = some dv →
      pyFloatOfJson dv = .ok q →
      (extract_video_metadata env).map VideoMeta.duration_seconds =
        .ok (some q)) ∧
    (∀ v e, durationValueOf data fmt = some v → pyFloatOfJson v = .error e →
      (extract_video_metadata env).map VideoMeta.duration_seconds =
        .ok (some 0)) ∧
    (durationValueOf data fmt = Option.none →
      (extract_video_metadata env).map VideoMeta.duration_seconds =
        .ok (some 0)) := by
  have hbase : (extract_video_metadata env).map VideoMeta.duration_seconds =
      .ok (some (match durationValueOf data fmt with
        | some v =>
          match pyFloatOfJson v with
          | .ok q => q
          | .error _ => 0
        | Option.none => 0)) := by
    simp only [extract_video_metadata, hp, parse_ffprobe_output]
    norm_num [Except.map]
    exact apply_video_format_metadata_duration _ data _ fmt hfmt
  refine ⟨?_, ?_, ?_⟩
  · intro entries dv q hnof hstreams hfb hok
    have hdv : durationValueOf data fmt = some dv := by
      simp only [durationValueOf, hnof, hstreams, hfb]
    rw [hbase, hdv]
    simp only [hok]
  · intro v e hv he
    rw [hbase, hv]
    simp only [he]
  · intro hnone
    rw [hbase, hnone]

theorem extract_video_metadata_duration_spec_witness :
    (extract_video_metadata
        { probe := .completed 0 (some (.obj
            [("format", .obj []),
             ("streams", .arr [.obj [("codec_type", .str "video"),
                                     ("duration", .num 5)]])])),
          mtime := some 7, isoParse := fun _ => Option.none,
          suffix := ".mp4" }).map VideoMeta.duration_seconds = .ok (some 5) := by
  have h := (extract_video_metadata_duration_spec
    { probe := .completed 0 (some (.obj
        [("format", .obj []),
         ("streams", .arr [.obj [("codec_type", .str "video"),
                                 ("duration", .num 5)]])])),
      mtime := some 7, isoParse := fun _ => Option.none, suffix := ".mp4" }
    [("format", .obj []),
     ("streams", .arr [.obj [("codec_type", .str "video"),
                             ("duration", .num 5)]])]
    [] rfl rfl).1
    [.obj [("codec_type", .str "video"), ("duration", .num 5)]]
    (.num 5) 5 rfl rfl rfl rfl
  exact h

/-- C7 counterexample: the format block carries a non-coercible
duration (a JSON array) while the first video stream carries the
coercible duration `5`; the code sets duration `0.0` without consulting the
stream, refuting "only when neither source yields a coercible value is
the duration zero". -/
theorem video_duration_zero_despite_coercible_stream_counterexample :
    pyFloatOfJson (.num 5) = .ok 5 ∧
    (extract_video_metadata
        { probe := .completed 0 (some (.obj
            [("format", .obj [("duration", .arr [])]),
             ("streams", .arr [.obj [("codec_type", .str "video"),
                                     ("duration", .num 5)]])])),
          mtime := some 7, isoParse := fun _ => Option.none,
          suffix := ".mp4" }).map VideoMeta.duration_seconds = .ok (some 0) := by
  exact ⟨rfl, rfl⟩

/-! ### Thumbnail rendering (thumbnails.py) -/

/-- One external tool invocation together with the filesystem fact the
code checks afterwards: whether `_run_command` returned `True`, and
whether the output file exists once the tool has run.  A tool can write
its output and still fail (non-zero exit after writing, or a timeout),
so the two are independent. -/
structure ToolRun where
  runOk : Bool
  outputExists : Bool

/-- External collaborators of one `generate_video_thumbnail` call. -/
structure VideoThumbEnv where
  ensureDirOk : Bool
  duration : ℚ
  ffmpeg : ToolRun
  montage : ToolRun
  unlinkOk : Bool

/-- `_extract_video_frame`'s seek offset:
`min(duration * 0.1, 5.0) if duration > 0 else 0`. -/
def seekTime (duration : ℚ) : ℚ :=
  if duration > 0 then min (duration * (1 / 10)) 5 else 0

/-- `thumbnails._extract_video_frame`: run the frame-extraction tool and
report success only if it succeeded and the output file exists. -/
def extract_video_frame (env : VideoThumbEnv) : Bool :=
  env.ffmpeg.runOk && env.ffmpeg.outputExists

/-- `thumbnails._generate_montage_thumbnail`: success iff the tool
succeeded and the output file exists. -/
def generate_montage_thumbnail (t : ToolRun) : Bool :=
  t.runOk && t.outputExists

/-- `thumbnails.generate_video_thumbnail`, tracking alongside the
boolean result whether the temporary extracted-frame file still exists
when the function returns (second component). -/
def generate_video_thumbnail (env : VideoThumbEnv) : Bool × Bool :=
  if !env.ensureDirOk then (false, false)
  else if !(extract_video_frame env) then (false, env.ffmpeg.outputExists)
  else
    let success := generate_montage_thumbnail env.montage
    (success, !env.unlinkOk)

/-! ### C9: temp-frame cleanup of video thumbnails -/

/-- C9 (amended): once frame extraction has succeeded, the temporary
frame is deleted before `generate_video_thumbnail` returns — regardless
of whether the image-thumbnail pass succeeds or fails — provided the
deletion call itself does not fail.  When frame extraction fails, the
function returns without attempting deletion, so a frame file the tool
left behind remains (see the counterexample). -/
theorem generate_video_thumbnail_temp_cleanup (env : VideoThumbEnv)
    (hx : extract_video_frame env = true) (hu : env.unlinkOk = true) :
    (generate_video_thumbnail env).2 = false := by
  simp only [generate_video_thumbnail, hx, hu]
  cases env.ensureDirOk <;> simp

theorem generate_video_thumbnail_temp_cleanup_witness :
    (generate_video_thumbnail
      { ensureDirOk := true, duration := 0,
        ffmpeg := { runOk := true, outputExists := true },
        montage := { runOk := false, outputExists := false },
        unlinkOk := true }).2 = false :=
  generate_video_thumbnail_temp_cleanup
    { ensureDirOk := true, duration := 0,
      ffmpeg := { runOk := true, outputExists := true },
      montage := { runOk := false, outputExists := false },
      unlinkOk := true } rfl rfl

/-- C9 counterexample: frame extraction fails (`_run_command` returned
`False`, e.g. a timeout) after the tool already wrote the temp frame;
`generate_video_thumbnail` returns early and the temporary file remains,
refuting "deleted … including when frame extraction itself fails". -/
theorem video_thumbnail_temp_frame_left_counterexample :
    (generate_video_thumbnail
      { ensureDirOk := true, duration := 0,
        ffmpeg := { runOk := false, outputExists := true },
        montage := { runOk := true, outputExists := true },
        unlinkOk := true }).2 = true := rfl

/-! ### Media ingestion (media_processor.py) -/

/-- `media_processor.get_media_type`: classify by lowercased
extension. -/
def get_media_type (suffix : String) : Option String :=
  if pyLower suffix ∈ IMAGE_EXTENSIONS then some "image"
  else if pyLower suffix ∈ VIDEO_EXTENSIONS then some "video"
  else Option.none

/-- `media_processor._validate_media_file`: missing files are rejected,
otherwise classify. -/
def validate_media_file (sourceExists : Bool) (suffix : String) : Option String :=
  if !sourceExists then Option.none else get_media_type suffix

/-- `media_processor._generate_thumbnails`' result pair:
`(str(thumbnail_relative) if thumb_ok else None, thumb_ok)`. -/
def generate_thumbnails_result (thumbOk : Bool) (thumbRel : String) :
    Option String × Bool :=
  (if thumbOk then some thumbRel else Option.none, thumbOk)

/-- External collaborators of one `process_media_file` call. -/
structure IngestEnv where
  sourceExists : Bool
  suffix : String
  copyOk : Bool
  statOk : Bool
  thumbOk : Bool
  thumbRelName : String
  newId : ℤ

/-- `media_processor.process_media_file`, projected onto the claim's
observables: returns `none` for unsupported/missing files, propagates a
copy or stat `OSError`, and otherwise inserts a record and returns its
id together with the record's thumbnail path (null when rendering
failed). -/
def process_media_file (env : IngestEnv) : Except PyErr (Option (ℤ × Option String)) :=
  match validate_media_file env.sourceExists env.suffix with
  | Option.none => .ok Option.none
  | some _ =>
    if !env.copyOk then .error .osError
    else
      let thumb := (generate_thumbnails_result env.thumbOk env.thumbRelName).1
      if !env.statOk then .error .osError
      else .ok (some (env.newId, thumb))

/-! ### C5: thumbnail failure does not drop the import -/

/-- C5: for a supported, existing source file whose thumbnail rendering
fails, ingestion still inserts a record and returns its identifier; the
record's thumbnail path is null.  (The caller in `run_local_import`
counts the file as failed only when the returned id is `None`, so the
file is not counted as failed on account of the thumbnail.) -/
theorem process_media_file_thumbnail_failure (env : IngestEnv)
    (hex : env.sourceExists = true)
    (hsup : (get_media_type env.suffix).isSome = true)
    (hcopy : env.copyOk = true) (hstat : env.statOk = true)
    (hthumb : env.thumbOk = false) :
    process_media_file env = .ok (some (env.newId, Option.none)) := by
  have hval : validate_media_file env.sourceExists env.suffix =
      get_media_type env.suffix := by
    simp [validate_media_file, hex]
  simp only [process_media_file, hval]
  cases hmt : get_media_type env.suffix with
  | none => rw [hmt] at hsup; exact absurd hsup (by simp)
  | some mt =>
    simp only [hcopy, hstat, hthumb, generate_thumbnails_result]
    simp

theorem process_media_file_thumbnail_failure_witness :
    process_media_file
      { sourceExists := true, suffix := ".jpg", copyOk := true, statOk := true,
        thumbOk := false, thumbRelName := "1/a.jpg", newId := 42 } =
      .ok (some (42, Option.none)) :=
  process_media_file_thumbnail_failure
    { sourceExists := true, suffix := ".jpg", copyOk := true, statOk := true,
      thumbOk := false, thumbRelName := "1/a.jpg", newId := 42 }
    rfl (by decide) rfl rfl rfl

/-! ### Keyword tag merging (regenerator._merge_keyword_tags) -/

/-- The tag vocabulary and association state touched by
`_merge_keyword_tags`: `tags` rows `(id, name)` in insertion order,
`media_tags` rows `(media_id, tag_id)` in insertion order, and the next
rowid handed out by an insert. -/
structure TagDB where
  tags : List (ℤ × String)
  mediaTags : List (ℤ × ℤ)
  nextId : ℤ
  deriving DecidableEq, Repr

/-- The token list of `_merge_keyword_tags`: split on commas, strip each
piece, drop empties. -/
def keywordTokens (keywords : String) : List String :=
  ((keywords.splitOn ",").map (fun t => (⟨pyStrip t⟩ : String))).filter
    (fun t => !t.isEmpty)

/-- One iteration of the tag loop: `SELECT id FROM tags WHERE name = ?`
(first matching row); insert the tag with `last_insert_rowid` semantics
when absent; `INSERT OR IGNORE` the association. -/
def processTag (media_id : ℤ) (db : TagDB) (tag : String) : TagDB :=
  match db.tags.find? (fun t => t.2 == tag) with
  | some t =>
    if (media_id, t.1) ∈ db.mediaTags then db
    else { db with mediaTags := db.mediaTags ++ [(media_id, t.1)] }
  | Option.none =>
    let tagId := db.nextId
    let db1 : TagDB :=
      { db with tags := db.tags ++ [(tagId, tag)], nextId := db.nextId + 1 }
    if (media_id, tagId) ∈ db1.mediaTags then db1
    else { db1 with mediaTags := db1.mediaTags ++ [(media_id, tagId)] }

/-- The token list actually processed for an optional keyword string
(`if not keywords: return 0` makes `None` and `""` empty). -/
def mergedTokens : Option String → List String
  | Option.none => []
  | some s => if s.isEmpty then [] else keywordTokens s

/-- `regenerator._merge_keyword_tags`: returns the updated state and the
`inserted_count` (incremented once per token). -/
def merge_keyword_tags (media_id : ℤ) (keywords : Option String) (db : TagDB) :
    TagDB × ℕ :=
  match keywords with
  | Option.none => (db, 0)
  | some kw =>
    if kw.isEmpty then (db, 0)
    else
      let tags := keywordTokens kw
      if tags.isEmpty then (db, 0)
      else (tags.foldl (processTag media_id) db, tags.length)

/-- The record has an association for token `s`: the first tag row named
`s` exists and the `(media_id, tag_id)` pair is present. -/
def hasAssoc (media_id : ℤ) (db : TagDB) (s : String) : Prop :=
  ∃ tgt, db.tags.find? (fun t => t.2 == s) = some tgt ∧
    (media_id, tgt.1) ∈ db.mediaTags

theorem merge_keyword_tags_fst (media_id : ℤ) (kw : Option String) (db : TagDB) :
    (merge_keyword_tags media_id kw db).1 =
      (mergedTokens kw).foldl (processTag media_id) db := by
  cases kw with
  | none => rfl
  | some s =>
    simp only [merge_keyword_tags, mergedTokens]
    by_cases he : s.isEmpty
    · rw [if_pos he, if_pos he]
      rfl
    · rw [if_neg he, if_neg he]
      by_cases ht : (keywordTokens s).isEmpty
      · rw [if_pos ht]
        rw [List.isEmpty_iff] at ht
        rw [ht]
        rfl
      · rw [if_neg ht]

theorem processTag_grow (media_id : ℤ) (db : TagDB) (s : String) :
    ∃ t1 t2, (processTag media_id db s).tags = db.tags ++ t1 ∧
      (processTag media_id db s).mediaTags = db.mediaTags ++ t2 ∧
      ∀ x ∈ t1, x.2 = s := by
  unfold processTag
  cases hf : db.tags.find? (fun t => t.2 == s) with
  | some t =>
    by_cases hm : (media_id, t.1) ∈ db.mediaTags
    · exact ⟨[], [], by simp [hm], by simp [hm], by simp⟩
    · exact ⟨[], [(media_id, t.1)], by simp [hm], by simp [hm], by simp⟩
  | none =>
    by_cases hm : (media_id, db.nextId) ∈ db.mediaTags
    · exact ⟨[(db.nextId, s)], [], by simp [hm], by simp [hm], by simp⟩
    · exact ⟨[(db.nextId, s)], [(media_id, db.nextId)], by simp [hm], by simp [hm],
        by simp⟩

theorem hasAssoc_preserved (media_id : ℤ) (db : TagDB) (s u : String)
    (h : hasAssoc media_id db s) : hasAssoc media_id (processTag media_id db u) s := by
  obtain ⟨tgt, hf, hm⟩ := h
  obtain ⟨t1, t2, ht, hmt, -⟩ := processTag_grow media_id db u
  refine ⟨tgt, ?_, ?_⟩
  · rw [ht, List.find?_append, hf]
    rfl
  · rw [hmt]
    exact List.mem_append_left _ hm

theorem processTag_establishes (media_id : ℤ) (db : TagDB) (s : String) :
    hasAssoc media_id (processTag media_id db s) s := by
  unfold hasAssoc processTag
  cases hf : db.tags.find? (fun t => t.2 == s) with
  | some t =>
    by_cases hm : (media_id, t.1) ∈ db.mediaTags
    · simp only [if_pos hm]
      exact ⟨t, hf, hm⟩
    · simp only [if_neg hm]
      exact ⟨t, hf, List.mem_append_right _ (by simp)⟩
  | none =>
    have hfind : (db.tags ++ [(db.nextId, s)]).find? (fun t => t.2 == s) =
        some (db.nextId, s) := by
      rw [List.find?_append, hf]
      simp
    by_cases hm : (media_id, db.nextId) ∈ db.mediaTags
    · simp only [if_pos hm]
      exact ⟨(db.nextId, s), hfind, hm⟩
    · simp only [if_neg hm]
      exact ⟨(db.nextId, s), hfind, List.mem_append_right _ (by simp)⟩

theorem processTag_noop (media_id : ℤ) (db : TagDB) (s : String)
    (h : hasAssoc media_id db s) : processTag media_id db s = db := by
  obtain ⟨tgt, hf, hm⟩ := h
  unfold processTag
  rw [hf]
  simp only [if_pos hm]

theorem foldl_hasAssoc_preserved (media_id : ℤ) (l : List String) (db : TagDB)
    (s : String) (h : hasAssoc media_id db s) :
    hasAssoc media_id (l.foldl (processTag media_id) db) s := by
  induction l generalizing db with
  | nil => exact h
  | cons hd tl ih => exact ih _ (hasAssoc_preserved media_id db s hd h)

theorem foldl_establishes (media_id : ℤ) (l : List String) (db : TagDB) :
    ∀ s ∈ l, hasAssoc media_id (l.foldl (processTag media_id) db) s := by
  induction l generalizing db with
  | nil => intro s hs; cases hs
  | cons hd tl ih =>
    intro s hs
    rcases List.mem_cons.mp hs with rfl | hmem
    · exact foldl_hasAssoc_preserved media_id tl _ s
        (processTag_establishes media_id db s)
    · exact ih _ s hmem

theorem foldl_noop (media_id : ℤ) (l : List String) (db : TagDB)
    (h : ∀ s ∈ l, hasAssoc media_id db s) :
    l.foldl (processTag media_id) db = db := by
  induction l with
  | nil => rfl
  | cons hd tl ih =>
    have h1 : processTag media_id db hd = db :=
      processTag_noop media_id db hd (h hd (by simp))
    simp only [List.foldl_cons, h1]
    exact ih (fun s hs => h s (List.mem_cons_of_mem hd hs))

theorem processTag_names_nodup (media_id : ℤ) (db : TagDB) (s : String)
    (h : (db.tags.map Prod.snd).Nodup) :
    ((processTag media_id db s).tags.map Prod.snd).Nodup := by
  unfold processTag
  cases hf : db.tags.find? (fun t => t.2 == s) with
  | some t =>
    by_cases hm : (media_id, t.1) ∈ db.mediaTags <;> simp [hm, h]
  | none =>
    have hnot : s ∉ db.tags.map Prod.snd := by
      intro hmem
      obtain ⟨x, hx, hxs⟩ := List.mem_map.mp hmem
      have := List.find?_eq_none.mp hf x hx
      simp [hxs] at this
    by_cases hm : (media_id, db.nextId) ∈ db.mediaTags <;>
      simp [hm, List.nodup_append, h, hnot]

theorem processTag_assocs_nodup (media_id : ℤ) (db : TagDB) (s : String)
    (h : db.mediaTags.Nodup) : (processTag media_id db s).mediaTags.Nodup := by
  unfold processTag
  cases hf : db.tags.find? (fun t => t.2 == s) with
  | some t =>
    by_cases hm : (media_id, t.1) ∈ db.mediaTags <;>
      simp [hm, List.nodup_append, h]
  | none =>
    by_cases hm : (media_id, db.nextId) ∈ db.mediaTags <;>
      simp [hm, List.nodup_append, h]

theorem foldl_names_nodup (media_id : ℤ) (l : List String) (db : TagDB)
    (h : (db.tags.map Prod.snd).Nodup) :
    ((l.foldl (processTag media_id) db).tags.map Prod.snd).Nodup := by
  induction l generalizing db with
  | nil => exact h
  | cons hd tl ih => exact ih _ (processTag_names_nodup media_id db hd h)

theorem foldl_assocs_nodup (media_id : ℤ) (l : List String) (db : TagDB)
    (h : db.mediaTags.Nodup) :
    (l.foldl (processTag media_id) db).mediaTags.Nodup := by
  induction l generalizing db with
  | nil => exact h
  | cons hd tl ih => exact ih _ (processTag_assocs_nodup media_id db hd h)

theorem countP_decide_eq_one {α : Type} [DecidableEq α] (l : List α) (a : α)
    (h1 : l.Nodup) (h2 : a ∈ l) : l.countP (fun x => decide (x = a)) = 1 := by
  induction l with
  | nil => cases h2
  | cons hd tl ih =>
    rw [List.countP_cons]
    have hnd := List.nodup_cons.mp h1
    rcases List.mem_cons.mp h2 with heq | hmem
    · have hz : tl.countP (fun x => decide (x = a)) = 0 := by
        rw [List.countP_eq_zero]
        intro x hx hc
        rw [decide_eq_true_eq] at hc
        subst hc
        rw [heq] at hx
        exact hnd.1 hx
      rw [hz, heq]
      simp
    · have hne : hd ≠ a := fun h => hnd.1 (h ▸ hmem)
      rw [ih hnd.2 hmem]
      simp [hne]

theorem filter_name_length_one (l : List (ℤ × String)) (s : String)
    (tgt : ℤ × String) (hnd : (l.map Prod.snd).Nodup) (hmem : tgt ∈ l)
    (hs : tgt.2 = s) : (l.filter (fun x => x.2 == s)).length = 1 := by
  induction l with
  | nil => cases hmem
  | cons hd tl ih =>
    simp only [List.map_cons, List.nodup_cons] at hnd
    rcases List.mem_cons.mp hmem with rfl | hmem'
    · have hhd : (tgt.2 == s) = true := by rw [hs]; exact beq_self_eq_true s
      have htl : tl.filter (fun x => x.2 == s) = [] := by
        rw [List.filter_eq_nil_iff]
        intro x hx
        intro hc
        rw [beq_iff_eq] at hc
        refine hnd.1 ?_
        rw [hs]
        rw [← hc]
        exact List.mem_map.mpr ⟨x, hx, rfl⟩
      rw [List.filter_cons, if_pos hhd, htl]
      rfl
    · have hne : (hd.2 == s) = false := by
        rw [beq_eq_false_iff_ne]
        intro hc
        refine hnd.1 ?_
        rw [hc, ← hs]
        exact List.mem_map.mpr ⟨tgt, hmem', rfl⟩
      rw [List.filter_cons, if_neg (by simp [hne])]
      exact ih hnd.2 hmem'

/-! ### C6: keyword tag association is idempotent -/

/-- C6: starting from a well-formed state (distinct tag names, no
duplicate associations), running `_merge_keyword_tags` twice with the
same keyword string leaves the same state as running it once; the
resulting state is still duplicate-free, and for every distinct trimmed
non-empty comma token there is exactly one tag row of that name and
exactly one association between the record and that tag. -/
theorem merge_keyword_tags_idempotent (media_id : ℤ) (kw : Option String)
    (db : TagDB) (h1 : (db.tags.map Prod.snd).Nodup) (h2 : db.mediaTags.Nodup) :
    (merge_keyword_tags media_id kw
        ((merge_keyword_tags media_id kw db).1)).1 =
      (merge_keyword_tags media_id kw db).1 ∧
    (((merge_keyword_tags media_id kw db).1).tags.map Prod.snd).Nodup ∧
    ((merge_keyword_tags media_id kw db).1).mediaTags.Nodup ∧
    ∀ s ∈ mergedTokens kw, ∃ tgt,
      ((merge_keyword_tags media_id kw db).1).tags.find? (fun t => t.2 == s) =
        some tgt ∧
      (((merge_keyword_tags media_id kw db).1).tags.filter
        (fun x => x.2 == s)).length = 1 ∧
      ((merge_keyword_tags media_id kw db).1).mediaTags.countP
        (fun p => decide (p = (media_id, tgt.1))) = 1 := by
  rw [merge_keyword_tags_fst, merge_keyword_tags_fst]
  set db1 := (mergedTokens kw).foldl (processTag media_id) db with hdb1
  have hest := foldl_establishes media_id (mergedTokens kw) db
  have hnames : (db1.tags.map Prod.snd).Nodup :=
    foldl_names_nodup media_id (mergedTokens kw) db h1
  have hassocs : db1.mediaTags.Nodup :=
    foldl_assocs_nodup media_id (mergedTokens kw) db h2
  refine ⟨foldl_noop media_id (mergedTokens kw) db1 (fun s hs => hest s hs),
    hnames, hassocs, ?_⟩
  intro s hs
  obtain ⟨tgt, hf, hm⟩ := hest s hs
  refine ⟨tgt, hf, ?_, ?_⟩
  · exact filter_name_length_one db1.tags s tgt hnames
      (List.mem_of_find?_eq_some hf) (by simpa using List.find?_some hf)
  · exact countP_decide_eq_one db1.mediaTags (media_id, tgt.1) hassocs hm

theorem merge_keyword_tags_idempotent_witness :
    (merge_keyword_tags 1 (some "beach, sunset")
        ((merge_keyword_tags 1 (some "beach, sunset") ⟨[], [], 1⟩).1)).1 =
      (merge_keyword_tags 1 (some "beach, sunset") ⟨[], [], 1⟩).1 :=
  (merge_keyword_tags_idempotent 1 (some "beach, sunset") ⟨[], [], 1⟩
    (by simp) (by simp)).1

/-! ### Regeneration reconciliation (regenerator.run_regeneration) -/

/-- A persisted media row as the regeneration query reads it.  Column
values are embedded at the types the schema stores; `date_taken` is the
stored `isoformat()` string. -/
structure MediaRow where
  id : ℤ
  user_id : ℤ
  file_path : String
  thumbnail_path : Option String
  media_type : String
  width : Option ℤ
  height : Option ℤ
  file_size : Option ℤ
  duration_seconds : Option ℚ
  date_taken : Option String
  gps_latitude : Option ℚ
  gps_longitude : Option ℚ
  gps_altitude : Option ℚ
  camera_make : Option String
  camera_model : Option String
  iso : Option ℤ
  exposure_time : Option String
  f_number : Option ℚ
  focal_length : Option ℚ
  location_state : Option String
  location_country : Option String
  keywords : Option String
  deriving DecidableEq, Repr

/-- The fields of the freshly extracted `MediaMetadata` that the merge
consumes, at the column types the UPDATE writes (`date_taken` already in
its `isoformat()` serialisation; `generate_complete_metadata` always
produces one, but the merge itself also handles its absence). -/
structure FreshMeta where
  width : Option ℤ := Option.none
  height : Option ℤ := Option.none
  date_taken : Option String := Option.none
  gps_latitude : Option ℚ := Option.none
  gps_longitude : Option ℚ := Option.none
  gps_altitude : Option ℚ := Option.none
  camera_make : Option String := Option.none
  camera_model : Option String := Option.none
  iso : Option ℤ := Option.none
  exposure_time : Option String := Option.none
  f_number : Option ℚ := Option.none
  focal_length : Option ℚ := Option.none
  location_state : Option String := Option.none
  location_country : Option String := Option.none
  keywords : Option String := Option.none
  duration_seconds : Option ℚ := Option.none
  deriving DecidableEq, Repr

/-- The local `choose(existing, new_value)` closure of
`run_regeneration`: in missing-only mode keep a non-null existing value;
otherwise prefer the new value when non-null. -/
def choose {α : Type} (missing_only : Bool) (existing newValue : Option α) : Option α :=
  if missing_only ∧ existing.isSome then existing
  else
    match newValue with
    | some v => some v
    | Option.none => existing

/-- The `metadata_values` mapping built for one record: the merged
column values the UPDATE writes back. -/
structure MergedValues where
  width : Option ℤ
  height : Option ℤ
  date_taken : Option String
  gps_latitude : Option ℚ
  gps_longitude : Option ℚ
  gps_altitude : Option ℚ
  camera_make : Option String
  camera_model : Option String
  iso : Option ℤ
  exposure_time : Option String
  f_number : Option ℚ
  focal_length : Option ℚ
  location_state : Option String
  location_country : Option String
  keywords : Option String
  duration_seconds : Option ℚ
  deriving DecidableEq, Repr

/-- The per-field merge of `run_regeneration`: every column goes through
`choose` except `date_taken`, which takes the fresh timestamp whenever
extraction produced one. -/
def mergeMetadataValues (missing_only : Bool) (row : MediaRow) (m : FreshMeta) :
    MergedValues :=
  { width := choose missing_only row.width m.width,
    height := choose missing_only row.height m.height,
    date_taken :=
      match m.date_taken with
      | some d => some d
      | Option.none => row.date_taken,
    gps_latitude := choose missing_only row.gps_latitude m.gps_latitude,
    gps_longitude := choose missing_only row.gps_longitude m.gps_longitude,
    gps_altitude := choose missing_only row.gps_altitude m.gps_altitude,
    camera_make := choose missing_only row.camera_make m.camera_make,
    camera_model := choose missing_only row.camera_model m.camera_model,
    iso := choose missing_only row.iso m.iso,
    exposure_time := choose missing_only row.exposure_time m.exposure_time,
    f_number := choose missing_only row.f_number m.f_number,
    focal_length := choose missing_only row.focal_length m.focal_length,
    location_state := choose missing_only row.location_state m.location_state,
    location_country := choose missing_only row.location_country m.location_country,
    keywords := choose missing_only row.keywords m.keywords,
    duration_seconds := choose missing_only row.duration_seconds m.duration_seconds }

/-- `metadata_missing`: any of the 13 checked columns is NULL
(`location_state`, `location_country` and `duration_seconds` are not
checked). -/
def metadataMissing (row : MediaRow) : Bool :=
  row.width.isNone || row.height.isNone || row.date_taken.isNone ||
  row.gps_latitude.isNone || row.gps_longitude.isNone ||
  row.camera_make.isNone || row.camera_model.isNone || row.iso.isNone ||
  row.exposure_time.isNone || row.f_number.isNone || row.focal_length.isNone ||
  row.gps_altitude.isNone || row.keywords.isNone

/-- External facts about one record during a regeneration pass: does its
original file exist, does its thumbnail file exist, the freshly
extracted metadata, and whether the thumbnail renderer succeeds. -/
structure RecordEnv where
  originalExists : Bool
  thumbnailFileExists : Bool
  fresh : FreshMeta
  thumbOk : Bool

/-- What one loop iteration did to its record. -/
inductive RecordOutcome where
  | missingFile (err : String)
  | skippedComplete
  | processed (merged : MergedValues) (thumbnailGenerated : Bool) (tagsUpdated : ℕ)

/-- The per-record body of `run_regeneration` (after the cancellation
check): skip missing files with an error, skip fully-populated records
in missing-only mode, otherwise merge, persist, regenerate the thumbnail
when due, and merge keyword tags (`tagsUpdated` is the token count the
tag step returns for the merged keyword string). -/
def regenProcessRecord (missing_only : Bool) (row : MediaRow) (env : RecordEnv) :
    RecordOutcome :=
  if !env.originalExists then .missingFile ("Missing file: " ++ row.file_path)
  else
    let thumbnail_missing := row.thumbnail_path.isNone || !env.thumbnailFileExists
    if missing_only && !(metadataMissing row) && !thumbnail_missing then
      .skippedComplete
    else
      let merged := mergeMetadataValues missing_only row env.fresh
      let thumbGen := if !missing_only || thumbnail_missing then env.thumbOk else false
      .processed merged thumbGen (mergedTokens merged.keywords).length

/-- `regenerator._update_job_progress`. -/
def updateJobProgress (j : RegenerationJob) (metadataUpdated thumbnailGenerated : Bool)
    (tagsUpdated : ℕ) (error : Option String) : RegenerationJob :=
  { j with
      processed_media := j.processed_media + 1,
      updated_metadata := j.updated_metadata + (if metadataUpdated then 1 else 0),
      generated_thumbnails :=
        j.generated_thumbnails + (if thumbnailGenerated then 1 else 0),
      updated_tags := j.updated_tags + tagsUpdated,
      errors := j.errors ++ (match error with
        | some e => [e]
        | Option.none => []) }

/-- `regenerator._finalize_job_success` on the live job. -/
def finalizeSuccess (j : RegenerationJob) (now : ℚ) : RegenerationJob :=
  { j with status := .completed, completed_at := some now }

/-- `regenerator._finalize_job_cancelled` on the live job. -/
def finalizeCancelled (j : RegenerationJob) (now : ℚ) : RegenerationJob :=
  { j with status := .cancelled, completed_at := some now }

/-- The record loop of `run_regeneration`.  Each list element carries
the value the cooperative cancellation flag is observed to have at the
top of that iteration (set concurrently by `cancel_regeneration`), the
row, and the record's environment.  Returns the final job, the ids of
the records whose merged values were persisted (in order), and whether
the loop returned through the cancellation branch (which clears the
flag). -/
def regenLoop (missing_only : Bool) (now : ℚ) :
    List (Bool × MediaRow × RecordEnv) → RegenerationJob →
    RegenerationJob × List ℤ × Bool
  | [], j => (finalizeSuccess j now, [], false)
  | (flag, row, env) :: rest, j =>
    if flag then (finalizeCancelled j now, [], true)
    else
      match regenProcessRecord missing_only row env with
      | .missingFile err =>
        regenLoop missing_only now rest (updateJobProgress j false false 0 (some err))
      | .skippedComplete =>
        regenLoop missing_only now rest
          (updateJobProgress j false false 0 Option.none)
      | .processed _ thumbGen tags =>
        let result := regenLoop missing_only now rest
          (updateJobProgress j true thumbGen tags Option.none)
        (result.1, row.id :: result.2.1, result.2.2)

/-- `regenerator.run_regeneration` (enumeration succeeded): clear the
cancel flag, start a running job, set the totals, and run the loop. -/
def run_regeneration_model (missing_only : Bool) (now : ℚ)
    (items : List (Bool × MediaRow × RecordEnv)) :
    RegenerationJob × List ℤ × Bool :=
  regenLoop missing_only now items
    { status := .running, started_at := some now, total_media := items.length }

theorem choose_keeps {α : Type} (existing newValue : Option α)
    (h : existing.isSome = true) : choose true existing newValue = existing := by
  simp [choose, h]

theorem choose_fresh {α : Type} (existing newValue : Option α)
    (h : newValue.isSome = true) : choose false existing newValue = newValue := by
  obtain ⟨v, rfl⟩ := Option.isSome_iff_exists.mp h
  simp [choose]

theorem choose_none {α : Type} (existing : Option α) :
    choose false existing Option.none = existing := by
  simp [choose]

/-! ### C1: the regeneration merge policy -/

/-- C1 (amended): per merged record, in missing-only mode every column
except the capture timestamp keeps its existing non-null value, and in
full mode every column for which fresh extraction produced a non-null
value takes the fresh value; the capture timestamp — in both modes — is
taken from fresh extraction whenever it produced one and kept otherwise. -/
theorem merge_metadata_values_policy (row : MediaRow) (m : FreshMeta) :
    ((row.width.isSome = true →
        (mergeMetadataValues true row m).width = row.width) ∧
     (row.height.isSome = true →
        (mergeMetadataValues true row m).height = row.height) ∧
     (row.gps_latitude.isSome = true →
        (mergeMetadataValues true row m).gps_latitude = row.gps_latitude) ∧
     (row.gps_longitude.isSome = true →
        (mergeMetadataValues true row m).gps_longitude = row.gps_longitude) ∧
     (row.gps_altitude.isSome = true →
        (mergeMetadataValues true row m).gps_altitude = row.gps_altitude) ∧
     (row.camera_make.isSome = true →
        (mergeMetadataValues true row m).camera_make = row.camera_make) ∧
     (row.camera_model.isSome = true →
        (mergeMetadataValues true row m).camera_model = row.camera_model) ∧
     (row.iso.isSome = true →
        (mergeMetadataValues true row m).iso = row.iso) ∧
     (row.exposure_time.isSome = true →
        (mergeMetadataValues true row m).exposure_time = row.exposure_time) ∧
     (row.f_number.isSome = true →
        (mergeMetadataValues true row m).f_number = row.f_number) ∧
     (row.focal_length.isSome = true →
        (mergeMetadataValues true row m).focal_length = row.focal_length) ∧
     (row.location_state.isSome = true →
        (mergeMetadataValues true row m).location_state = row.location_state) ∧
     (row.location_country.isSome = true →
        (mergeMetadataValues true row m).location_country = row.location_country) ∧
     (row.keywords.isSome = true →
        (mergeMetadataValues true row m).keywords = row.keywords) ∧
     (row.duration_seconds.isSome = true →
        (mergeMetadataValues true row m).duration_seconds = row.duration_seconds)) ∧
    ((m.date_taken.isSome = true →
        (mergeMetadataValues true row m).date_taken = m.date_taken ∧
        (mergeMetadataValues false row m).date_taken = m.date_taken) ∧
     (m.date_taken = Option.none →
        (mergeMetadataValues true row m).date_taken = row.date_taken ∧
        (mergeMetadataValues false row m).date_taken = row.date_taken)) ∧
    ((m.width.isSome = true →
        (mergeMetadataValues false row m).width = m.width) ∧
     (m.height.isSome = true →
        (mergeMetadataValues false row m).height = m.height) ∧
     (m.gps_latitude.isSome = true →
        (mergeMetadataValues false row m).gps_latitude = m.gps_latitude) ∧
     (m.gps_longitude.isSome = true →
        (mergeMetadataValues false row m).gps_longitude = m.gps_longitude) ∧
     (m.gps_altitude.isSome = true →
        (mergeMetadataValues false row m).gps_altitude = m.gps_altitude) ∧
     (m.camera_make.isSome = true →
        (mergeMetadataValues false row m).camera_make = m.camera_make) ∧
     (m.camera_model.isSome = true →
        (mergeMetadataValues false row m).camera_model = m.camera_model) ∧
     (m.iso.isSome = true →
        (mergeMetadataValues false row m).iso = m.iso) ∧
     (m.exposure_time.isSome = true →
        (mergeMetadataValues false row m).exposure_time = m.exposure_time) ∧
     (m.f_number.isSome = true →
        (mergeMetadataValues false row m).f_number = m.f_number) ∧
     (m.focal_length.isSome = true →
        (mergeMetadataValues false row m).focal_length = m.focal_length) ∧
     (m.location_state.isSome = true →
        (mergeMetadataValues false row m).location_state = m.location_state) ∧
     (m.location_country.isSome = true →
        (mergeMetadataValues false row m).location_country = m.location_country) ∧
     (m.keywords.isSome = true →
        (mergeMetadataValues false row m).keywords = m.keywords) ∧
     (m.duration_seconds.isSome = true →
        (mergeMetadataValues false row m).duration_seconds = m.duration_seconds)) := by
  refine ⟨⟨?_, ?_, ?_, ?_, ?_, ?_, ?_, ?_, ?_, ?_, ?_, ?_, ?_, ?_, ?_⟩,
    ⟨?_, ?_⟩,
    ⟨?_, ?_, ?_, ?_, ?_, ?_, ?_, ?_, ?_, ?_, ?_, ?_, ?_, ?_, ?_⟩⟩
  all_goals intro h
  case refine_16 =>
    obtain ⟨d, hd⟩ := Option.isSome_iff_exists.mp h
    constructor <;> simp [mergeMetadataValues, hd]
  case refine_17 =>
    constructor <;> simp [mergeMetadataValues, h]
  all_goals
    first
    | exact choose_keeps _ _ h
    | exact choose_fresh _ _ h

/-- Witness instantiation of the merge policy at a concrete record. -/
theorem merge_metadata_values_policy_witness :
    (mergeMetadataValues true
        { id := 1, user_id := 1, file_path := "1/a.jpg",
          thumbnail_path := Option.none, media_type := "image",
          width := some 640, height := Option.none, file_size := Option.none,
          duration_seconds := Option.none, date_taken := Option.none,
          gps_latitude := Option.none, gps_longitude := Option.none,
          gps_altitude := Option.none, camera_make := Option.none,
          camera_model := Option.none, iso := Option.none,
          exposure_time := Option.none, f_number := Option.none,
          focal_length := Option.none, location_state := Option.none,
          location_country := Option.none, keywords := Option.none }
        { width := some 7 }).width = some 640 :=
  (merge_metadata_values_policy
    { id := 1, user_id := 1, file_path := "1/a.jpg",
      thumbnail_path := Option.none, media_type := "image",
      width := some 640, height := Option.none, file_size := Option.none,
      duration_seconds := Option.none, date_taken := Option.none,
      gps_latitude := Option.none, gps_longitude := Option.none,
      gps_altitude := Option.none, camera_make := Option.none,
      camera_model := Option.none, iso := Option.none,
      exposure_time := Option.none, f_number := Option.none,
      focal_length := Option.none, location_state := Option.none,
      location_country := Option.none, keywords := Option.none }
    { width := some 7 }).1.1 rfl

/-- A concrete stored row for the C1 counterexample: `date_taken` is
already non-null, `keywords` is null so a missing-only pass still
re-processes the record. -/
def c1Row : MediaRow :=
  { id := 1, user_id := 1, file_path := "1/a.jpg",
    thumbnail_path := some "1/a.jpg", media_type := "image",
    width := some 640, height := some 480, file_size := some 1000,
    duration_seconds := Option.none,
    date_taken := some "2020-01-01T00:00:00",
    gps_latitude := some 1, gps_longitude := some 2, gps_altitude := some 3,
    camera_make := some "m", camera_model := some "n", iso := some 100,
    exposure_time := some "1/60", f_number := some 2, focal_length := some 35,
    location_state := Option.none, location_country := Option.none,
    keywords := Option.none }

/-- The environment for the C1 counterexample: the file exists, the
thumbnail exists, and fresh extraction produced a different capture
timestamp. -/
def c1Env : RecordEnv :=
  { originalExists := true, thumbnailFileExists := true,
    fresh := { date_taken := some "2021-02-02T00:00:00" }, thumbOk := true }

/-- C1 counterexample: a missing-only run processes this record (its
`keywords` column is null) and overwrites its non-null `date_taken` with
the freshly extracted timestamp, so "every field that was non-null
before the run has the same value after the run" is false. -/
theorem missing_only_overwrites_date_taken_counterexample :
    c1Row.date_taken = some "2020-01-01T00:00:00" ∧
    regenProcessRecord true c1Row c1Env =
      .processed (mergeMetadataValues true c1Row c1Env.fresh) false 0 ∧
    (mergeMetadataValues true c1Row c1Env.fresh).date_taken =
      some "2021-02-02T00:00:00" := by
  refine ⟨rfl, ?_, rfl⟩
  rfl

/-! ### C3: cooperative cancellation of the regeneration loop -/

theorem regenLoop_cons_cancel (missing_only : Bool) (now : ℚ) (row : MediaRow)
    (env : RecordEnv) (rest : List (Bool × MediaRow × RecordEnv))
    (j : RegenerationJob) :
    regenLoop missing_only now ((true, row, env) :: rest) j =
      (finalizeCancelled j now, [], true) := rfl

theorem regenLoop_cons_missing (missing_only : Bool) (now : ℚ) (row : MediaRow)
    (env : RecordEnv) (rest : List (Bool × MediaRow × RecordEnv))
    (j : RegenerationJob) (err : String)
    (hout : regenProcessRecord missing_only row env = .missingFile err) :
    regenLoop missing_only now ((false, row, env) :: rest) j =
      regenLoop missing_only now rest
        (updateJobProgress j false false 0 (some err)) := by
  simp only [regenLoop]
  rw [hout]
  rfl

theorem regenLoop_cons_skipped (missing_only : Bool) (now : ℚ) (row : MediaRow)
    (env : RecordEnv) (rest : List (Bool × MediaRow × RecordEnv))
    (j : RegenerationJob)
    (hout : regenProcessRecord missing_only row env = .skippedComplete) :
    regenLoop missing_only now ((false, row, env) :: rest) j =
      regenLoop missing_only now rest
        (updateJobProgress j false false 0 Option.none) := by
  simp only [regenLoop]
  rw [hout]
  rfl

theorem regenLoop_cons_processed (missing_only : Bool) (now : ℚ) (row : MediaRow)
    (env : RecordEnv) (rest : List (Bool × MediaRow × RecordEnv))
    (j : RegenerationJob) (merged : MergedValues) (thumbGen : Bool) (tags : ℕ)
    (hout : regenProcessRecord missing_only row env =
      .processed merged thumbGen tags) :
    regenLoop missing_only now ((false, row, env) :: rest) j =
      ((regenLoop missing_only now rest
          (updateJobProgress j true thumbGen tags Option.none)).1,
       row.id :: (regenLoop missing_only now rest
          (updateJobProgress j true thumbGen tags Option.none)).2.1,
       (regenLoop missing_only now rest
          (updateJobProgress j true thumbGen tags Option.none)).2.2) := by
  simp only [regenLoop]
  rw [hout]
  rfl

theorem updateJobProgress_processed (j : RegenerationJob) (mu tg : Bool) (ts : ℕ)
    (er : Option String) :
    (updateJobProgress j mu tg ts er).processed_media = j.processed_media + 1 := rfl

theorem updateJobProgress_total (j : RegenerationJob) (mu tg : Bool) (ts : ℕ)
    (er : Option String) :
    (updateJobProgress j mu tg ts er).total_media = j.total_media := rfl

theorem regenLoop_cancel (missing_only : Bool) (now : ℚ)
    (pre : List (Bool × MediaRow × RecordEnv))
    (item : Bool × MediaRow × RecordEnv)
    (rest : List (Bool × MediaRow × RecordEnv)) (j : RegenerationJob)
    (hpre : ∀ x ∈ pre, x.1 = false) (hitem : item.1 = true) :
    (regenLoop missing_only now (pre ++ item :: rest) j).1.status =
      RegenerationStatus.cancelled ∧
    (regenLoop missing_only now (pre ++ item :: rest) j).2.2 = true ∧
    (regenLoop missing_only now (pre ++ item :: rest) j).1.processed_media =
      j.processed_media + pre.length ∧
    (regenLoop missing_only now (pre ++ item :: rest) j).1.total_media =
      j.total_media ∧
    ∀ i ∈ (regenLoop missing_only now (pre ++ item :: rest) j).2.1,
      i ∈ pre.map (fun x => x.2.1.id) := by
  induction pre generalizing j with
  | nil =>
    obtain ⟨flag, row, env⟩ := item
    simp only at hitem
    subst hitem
    rw [List.nil_append, regenLoop_cons_cancel]
    refine ⟨rfl, rfl, rfl, rfl, ?_⟩
    intro i hi
    exact absurd hi (List.not_mem_nil i)
  | cons hd tl ih =>
    obtain ⟨flag, row, env⟩ := hd
    have hflag : flag = false := hpre (flag, row, env) (by simp)
    subst hflag
    have htl : ∀ x ∈ tl, x.1 = false := fun x hx => hpre x (by simp [hx])
    rw [List.cons_append]
    cases hout : regenProcessRecord missing_only row env with
    | missingFile err =>
      rw [regenLoop_cons_missing missing_only now row env _ j err hout]
      obtain ⟨h1, h2, h3, h4, h5⟩ :=
        ih (updateJobProgress j false false 0 (some err)) htl
      refine ⟨h1, h2, ?_, ?_, ?_⟩
      · rw [h3, updateJobProgress_processed]
        simp only [List.length_cons]
        omega
      · rw [h4, updateJobProgress_total]
      · intro i hi
        simp only [List.map_cons]
        exact List.mem_cons_of_mem _ (h5 i hi)
    | skippedComplete =>
      rw [regenLoop_cons_skipped missing_only now row env _ j hout]
      obtain ⟨h1, h2, h3, h4, h5⟩ :=
        ih (updateJobProgress j false false 0 Option.none) htl
      refine ⟨h1, h2, ?_, ?_, ?_⟩
      · rw [h3, updateJobProgress_processed]
        simp only [List.length_cons]
        omega
      · rw [h4, updateJobProgress_total]
      · intro i hi
        simp only [List.map_cons]
        exact List.mem_cons_of_mem _ (h5 i hi)
    | processed merged thumbGen tags =>
      rw [regenLoop_cons_processed missing_only now row env _ j merged thumbGen
        tags hout]
      obtain ⟨h1, h2, h3, h4, h5⟩ :=
        ih (updateJobProgress j true thumbGen tags Option.none) htl
      refine ⟨h1, h2, ?_, ?_, ?_⟩
      · rw [h3, updateJobProgress_processed]
        simp only [List.length_cons]
        omega
      · rw [h4, updateJobProgress_total]
      · intro i hi
        simp only [List.map_cons]
        rcases List.mem_cons.mp hi with rfl | hi'
        · exact List.mem_cons_self _ _
        · exact List.mem_cons_of_mem _ (h5 i hi')

/-- C3: in a regeneration run over `M` records in which the
cancellation flag is first observed set at the top of some iteration,
the run finalizes the job as Cancelled, clears the flag, counts exactly
the earlier iterations as processed (`processed ≤ M`), and persists no
record from the cancellation point on — every persisted id belongs to a
record strictly before it. -/
theorem regeneration_cancellation (missing_only : Bool) (now : ℚ)
    (pre : List (Bool × MediaRow × RecordEnv))
    (item : Bool × MediaRow × RecordEnv)
    (rest : List (Bool × MediaRow × RecordEnv))
    (hpre : ∀ x ∈ pre, x.1 = false) (hitem : item.1 = true) :
    (run_regeneration_model missing_only now (pre ++ item :: rest)).1.status =
      RegenerationStatus.cancelled ∧
    (run_regeneration_model missing_only now (pre ++ item :: rest)).2.2 = true ∧
    (run_regeneration_model missing_only now
        (pre ++ item :: rest)).1.processed_media = pre.length ∧
    (run_regeneration_model missing_only now
        (pre ++ item :: rest)).1.processed_media ≤
      (run_regeneration_model missing_only now
        (pre ++ item :: rest)).1.total_media ∧
    ∀ i ∈ (run_regeneration_model missing_only now (pre ++ item :: rest)).2.1,
      i ∈ pre.map (fun x => x.2.1.id) := by
  obtain ⟨h1, h2, h3, h4, h5⟩ := regenLoop_cancel missing_only now pre item rest
    { status := .running, started_at := some now,
      total_media := (pre ++ item :: rest).length }
    hpre hitem
  refine ⟨h1, h2, ?_, ?_, h5⟩
  · simp only [run_regeneration_model]
    rw [h3]
    show 0 + pre.length = pre.length
    omega
  · simp only [run_regeneration_model]
    rw [h3, h4]
    show 0 + pre.length ≤ (pre ++ item :: rest).length
    rw [List.length_append]
    omega

theorem regeneration_cancellation_witness :
    (run_regeneration_model true 0 [(true, c1Row, c1Env)]).1.status =
      RegenerationStatus.cancelled ∧
    (run_regeneration_model true 0 [(true, c1Row, c1Env)]).1.processed_media = 0 :=
  ⟨(regeneration_cancellation true 0 [] (true, c1Row, c1Env) []
      (fun x hx => absurd hx (List.not_mem_nil x)) rfl).1,
   (regeneration_cancellation true 0 [] (true, c1Row, c1Env) []
      (fun x hx => absurd hx (List.not_mem_nil x)) rfl).2.2.1⟩

end Momento
